import Mathlib

/-!
Verification development for the single-file HTML-to-PDF converter
(`html_to_pdf.py`).  The string-mutation helpers `_inject_base_tag` and
`_wrap_with_css` are embedded as executable functions on `List Char`,
mirroring the Python regex semantics (`(?i)<head[^>]*>` and
`(?i)</head\s*>`, first match only).  The orchestration function
`html_to_pdf`, the request-interception handler and the CLI margin
handling are embedded over an abstract `World` that records the outcome
of every external operation and an event trace of the side effects.
-/

/-! ### HtmlPreparer: `_inject_base_tag` and `_wrap_with_css` -/

/-- The lowered search pattern used by `"<head" in html.lower()` and by the
regex literal `<head`. -/
def headPat : List Char := "<head".toList

/-- Per-character lowering, modelling `str.lower()` on the pattern-relevant
(ASCII) characters. -/
def lowerStr (s : List Char) : List Char := s.map Char.toLower

/-- `pat` occurs as a contiguous substring of `s` (models Python `in`). -/
def containsSub (pat : List Char) : List Char → Bool
  | [] => pat.isPrefixOf ([] : List Char)
  | c :: cs => pat.isPrefixOf (c :: cs) || containsSub pat cs

/-- Split a character list at its first `'>'`, returning the chunk up to and
including that `'>'` together with the remainder.  This is exactly what the
greedy regex piece `[^>]*>` consumes. -/
def splitAtGt : List Char → Option (List Char × List Char)
  | [] => none
  | c :: cs =>
    if c = '>' then some ([c], cs)
    else
      match splitAtGt cs with
      | some (a, b) => some (c :: a, b)
      | none => none

/-- Match of the regex `(?i)<head[^>]*>` anchored at the start of `s`:
the first five characters must lower to `<head`, and the tag extends to the
first subsequent `'>'`.  Returns the matched text and the remainder. -/
def matchHeadAt (s : List Char) : Option (List Char × List Char) :=
  if (s.take 5).map Char.toLower = headPat then
    match splitAtGt (s.drop 5) with
    | some (a, b) => some (s.take 5 ++ a, b)
    | none => none
  else none

/-- The lowered pattern of the closing-tag regex literal `</head`. -/
def closeHeadPat : List Char := "</head".toList

/-- The whitespace class matched by Python's regex `\s` on str patterns
(and stripped by `str.strip()`): the full Unicode whitespace set
U+0009–U+000D, U+001C–U+001F, U+0020, U+0085, U+00A0, U+1680,
U+2000–U+200A, U+2028, U+2029, U+202F, U+205F, U+3000. -/
def pySpace (c : Char) : Bool :=
  ('\t' ≤ c && c ≤ '\r') || ('\x1c' ≤ c && c ≤ '\x1f') || c = ' ' ||
  c = '\x85' || c = '\u00a0' || c = '\u1680' ||
  ('\u2000' ≤ c && c ≤ '\u200a') || c = '\u2028' || c = '\u2029' ||
  c = '\u202f' || c = '\u205f' || c = '\u3000'

/-- Split off the maximal leading run of whitespace (the greedy `\s*`). -/
def spanSpaces : List Char → List Char × List Char
  | [] => ([], [])
  | c :: cs =>
    if pySpace c then
      let p := spanSpaces cs
      (c :: p.1, p.2)
    else ([], c :: cs)

/-- Match of the regex `(?i)</head\s*>` anchored at the start of `s`. -/
def matchCloseHeadAt (s : List Char) : Option (List Char × List Char) :=
  if (s.take 6).map Char.toLower = closeHeadPat then
    let p := spanSpaces (s.drop 6)
    match p.2 with
    | '>' :: rest => some (s.take 6 ++ p.1 ++ ['>'], rest)
    | _ => none

  else none

/-- `re.sub(r"(?i)(<head[^>]*>)", r"\1" + ins, html, count=1)`: scan left to
right for the first match of the opening-head regex and append `ins` right
after the matched tag; if no match exists the input is returned unchanged. -/
def subFirstHeadOpen (ins : List Char) : List Char → List Char
  | [] => []
  | c :: cs =>
    match matchHeadAt (c :: cs) with
    | some (tag, rest) => tag ++ ins ++ rest
    | none => c :: subFirstHeadOpen ins cs

/-- `re.sub(r"(?i)(</head\s*>)", ins + r"\1", html, count=1)`: insert `ins`
immediately before the first match of the closing-head regex. -/
def subFirstHeadClose (ins : List Char) : List Char → List Char
  | [] => []
  | c :: cs =>
    match matchCloseHeadAt (c :: cs) with
    | some (tag, rest) => ins ++ tag ++ rest
    | none => c :: subFirstHeadClose ins cs

/-- Decompose a string at the first match of the opening-head regex:
`some (before, tag, after)` with no earlier match inside `before`. -/
def splitHeadOpen : List Char → Option (List Char × List Char × List Char)
  | [] => none
  | c :: cs =>
    match matchHeadAt (c :: cs) with
    | some (tag, rest) => some ([], tag, rest)
    | none =>
      match splitHeadOpen cs with
      | some (a, tag, rest) => some (c :: a, tag, rest)
      | none => none

/-- Decompose a string at the first match of the closing-head regex. -/
def splitHeadClose : List Char → Option (List Char × List Char × List Char)
  | [] => none
  | c :: cs =>
    match matchCloseHeadAt (c :: cs) with
    | some (tag, rest) => some ([], tag, rest)
    | none =>
      match splitHeadClose cs with
      | some (a, tag, rest) => some (c :: a, tag, rest)
      | none => none

/-- The f-string `<base href="{base_href}">`. -/
def baseTagOf (baseHref : List Char) : List Char :=
  "<base href=\"".toList ++ baseHref ++ "\">".toList

/-- The replacement text `\n  ` + base tag appended after the matched tag. -/
def baseIns (baseHref : List Char) : List Char :=
  "\n  ".toList ++ baseTagOf baseHref

/-- The skeleton pieces of
`<!doctype html><html><head>...</head><body>...</body></html>`. -/
def docPre : List Char := "<!doctype html><html><head>".toList

/-- The skeleton piece between the head content and the body content. -/
def docMid : List Char := "</head><body>".toList

/-- The closing skeleton piece. -/
def docSuf : List Char := "</body></html>".toList

/-- `_inject_base_tag(html, base_href)` from the source: if the lowered text
contains the substring `<head`, substitute after the first regex match;
otherwise wrap in the minimal skeleton.  The replacement template
`r"\1\n  " + base_tag` is processed by `re.sub`: its hardcoded escapes are
reflected here (`\1` becomes the matched tag, `\n` a newline) and the rest
is inserted literally, which is exactly what Python does whenever
`base_href` itself contains no backslash.  A backslash inside `base_href`
would be escape-processed further by Python (a group reference is
substituted, a bad escape raises `re.error`); that path is not modelled,
and the insertion theorems below therefore assume a backslash-free
`base_href`. -/
def inject_base_tag (html baseHref : List Char) : List Char :=
  if containsSub headPat (lowerStr html) = true then
    subFirstHeadOpen (baseIns baseHref) html
  else
    docPre ++ baseTagOf baseHref ++ docMid ++ html ++ docSuf

/-- The f-string `<style>\n{css_text}\n</style>`. -/
def styleBlockOf (cssText : List Char) : List Char :=
  "<style>\n".toList ++ cssText ++ "\n</style>".toList

/-- The replacement inserted before the matched closing tag:
style block followed by `\n`. -/
def styleIns (cssText : List Char) : List Char := styleBlockOf cssText ++ ['\n']

/-- `_wrap_with_css(html, css_text)` from the source.  Note the branch
condition tests for the substring `<head` while the substitution targets
the closing tag `</head\s*>`.  The replacement template
`style_tag + r"\n\1"` is processed by `re.sub`: the hardcoded `\n` and `\1`
are reflected here, and the style block is inserted literally — exactly
Python's behaviour whenever `css_text` contains no backslash.  Backslashes
inside `css_text` would be escape-processed by Python (mangled octal
escapes, or `re.error`, raised even when the regex has no match since the
template is compiled up front); that path is not modelled, and the
insertion theorems below therefore assume backslash-free CSS text. -/
def wrap_with_css (html cssText : List Char) : List Char :=
  if containsSub headPat (lowerStr html) = true then
    subFirstHeadClose (styleIns cssText) html
  else
    docPre ++ styleBlockOf cssText ++ docMid ++ html ++ docSuf

/-- Whether the first application of `inject_base_tag` actually inserts a
base tag: either the skeleton branch is taken, or the opening-head regex has
a match.  (When the text contains `<head` with no subsequent `'>'`,
`re.sub` finds no match and the input passes through unchanged.) -/
def insertOk (html : List Char) : Bool :=
  if containsSub headPat (lowerStr html) = true then (splitHeadOpen html).isSome
  else true

/-- Count of (possibly overlapping) occurrences of `pat` in a string, one per
start position. -/
def countSub (pat : List Char) : List Char → Nat
  | [] => if pat.isPrefixOf ([] : List Char) then 1 else 0
  | c :: cs => (if pat.isPrefixOf (c :: cs) then 1 else 0) + countSub pat cs

/-- The concrete skeleton prefix in front of the skeleton's head tag. -/
def docPre21 : List Char := "<!doctype html><html>".toList

/-- The skeleton's own opening head tag `<head>`. -/
def headTagChars : List Char := "<head>".toList

/-! ### Data model: options, errors, events, world -/

/-- `wait_until` literal values. -/
inductive WaitUntil
  | load
  | domcontentloaded
  | networkidle

/-- `emulate_media` literal values. -/
inductive MediaKind
  | screen
  | print

/-- The `PdfOptions` dataclass. -/
structure PdfOptions where
  format : Option String := some ("A4")
  width : Option String := none
  height : Option String := none
  margin_top : String := "16mm"
  margin_right : String := "14mm"
  margin_bottom : String := "16mm"
  margin_left : String := "14mm"
  print_background : Bool := true
  prefer_css_page_size : Bool := true
  scale : Rat := 1
  display_header_footer : Bool := false
  header_template : String := ""
  footer_template : String := ""

/-- The `RenderOptions` dataclass. -/
structure RenderOptions where
  timeout_ms : Int := 60000
  wait_until : WaitUntil := WaitUntil.networkidle
  emulate_media : MediaKind := MediaKind.print
  allow_network : Bool := true
  extra_css_path : Option String := none
  add_base_tag : Bool := true

/-- Python exception kinds that can escape `html_to_pdf`:
`ValueError`, `FileNotFoundError`, the domain error `HtmlToPdfError`, and
unwrapped playwright failures raised outside the try block. -/
inductive PyError
  | valueError (msg : String)
  | fileNotFound (msg : String)
  | htmlToPdfError (msg : String)
  | playwrightError (msg : String)

/-- Side-effect events of one conversion call, in program order. -/
inductive Ev
  | mkdirParents (p : String)
  | readHtmlFile (p : String)
  | readCssFile (p : String)
  | writeTmpFile (content : List Char)
  | launch
  | newContext
  | newPage
  | installRoute
  | emulateMedia
  | gotoPage
  | evalFonts
  | exportPdf
  | closeContext
  | closeBrowser
  | stopPlaywright
deriving DecidableEq

/-- Abstract environment of a conversion call: path arithmetic, file-system
contents, and the success of each awaited browser operation.  `failMsg` is
the message of the underlying exception of whichever operation fails. -/
structure World where
  resolve : String → String
  parent : String → String
  cwd : String
  asUri : String → String
  pathExists : String → Bool
  readFile : String → String
  launchOk : Bool
  newContextOk : Bool
  newPageOk : Bool
  routeOk : Bool
  emulateOk : Bool
  gotoOk : Bool
  fontsOk : Bool
  pdfOk : Bool
  failMsg : String

/-- The wrapping text of `HtmlToPdfError(f"PDF render xatosi: {e}")`. -/
def renderPre : String := "PDF render xatosi: "

/-- The `ValueError` message for an invalid input configuration. -/
def cfgErrMsg : String := "Faqat bittasini bering: html (string) yoki html_path (file)."

/-- The `async with async_playwright()` block: launch browser, create
context and page, optionally install the request route, set emulated media,
then the try/except/finally around navigation, the best-effort font wait,
and the PDF export.  `context.close()` and `browser.close()` run in the
`finally` of that try block only; failures of the route installation or of
`emulate_media` happen before the try block and skip both closes. -/
def renderStage (w : World) (allowNetwork : Bool) : Except PyError Unit × List Ev :=
  if w.launchOk = false then
    (Except.error (PyError.playwrightError w.failMsg), [Ev.launch])
  else if w.newContextOk = false then
    (Except.error (PyError.playwrightError w.failMsg), [Ev.launch, Ev.newContext])
  else if w.newPageOk = false then
    (Except.error (PyError.playwrightError w.failMsg), [Ev.launch, Ev.newContext, Ev.newPage])
  else if allowNetwork = false ∧ w.routeOk = false then
    (Except.error (PyError.playwrightError w.failMsg),
      [Ev.launch, Ev.newContext, Ev.newPage, Ev.installRoute])
  else
    let ev4 := [Ev.launch, Ev.newContext, Ev.newPage] ++
      (if allowNetwork = true then ([] : List Ev) else [Ev.installRoute])
    if w.emulateOk = false then
      (Except.error (PyError.playwrightError w.failMsg), ev4 ++ [Ev.emulateMedia])
    else if w.gotoOk = false then
      (Except.error (PyError.htmlToPdfError (renderPre ++ w.failMsg)),
        ev4 ++ [Ev.emulateMedia, Ev.gotoPage, Ev.closeContext, Ev.closeBrowser])
    else if w.pdfOk = false then
      (Except.error (PyError.htmlToPdfError (renderPre ++ w.failMsg)),
        ev4 ++ [Ev.emulateMedia, Ev.gotoPage, Ev.evalFonts, Ev.exportPdf,
          Ev.closeContext, Ev.closeBrowser])
    else
      (Except.ok (),
        ev4 ++ [Ev.emulateMedia, Ev.gotoPage, Ev.evalFonts, Ev.exportPdf,
          Ev.closeContext, Ev.closeBrowser])

/-- Stage of `html_to_pdf` after the HTML text is fixed: optional base-tag
injection, write to the scoped temporary file, then the playwright scope
(whose exit emits `stopPlaywright` on every path). -/
def afterCss (w : World) (out : String) (ev : List Ev) (htmlText : List Char)
    (baseDir : String) (render : RenderOptions) : Except PyError String × List Ev :=
  let finalHtml :=
    if render.add_base_tag = true then
      inject_base_tag htmlText ((w.asUri (w.resolve baseDir)).toList ++ ['/'])
    else htmlText
  let res := renderStage w render.allow_network
  let evAll := ev ++ [Ev.writeTmpFile finalHtml] ++ res.2 ++ [Ev.stopPlaywright]
  match res.1 with
  | Except.error e => (Except.error e, evAll)
  | Except.ok _ => (Except.ok out, evAll)

/-- Stage of `html_to_pdf` handling the optional extra CSS file: resolve it,
require existence, read it and wrap the HTML text with the style block. -/
def afterRead (w : World) (out : String) (ev : List Ev) (htmlText : List Char)
    (baseDir : String) (render : RenderOptions) : Except PyError String × List Ev :=
  match render.extra_css_path with
  | some cp0 =>
    let cp := w.resolve cp0
    if w.pathExists cp = true then
      afterCss w out (ev ++ [Ev.readCssFile cp])
        (wrap_with_css htmlText (w.readFile cp).toList) baseDir render
    else
      (Except.error (PyError.fileNotFound ("CSS topilmadi: " ++ cp)), ev)
  | none => afterCss w out ev htmlText baseDir render

/-- The orchestration function `html_to_pdf`.  Faithful control flow:
the exactly-one-input check raises `ValueError` before anything else; the
output path is resolved and its parent directories created before the input
file's existence is checked; missing files raise `FileNotFoundError`; only
failures inside the navigation/export try block are wrapped into
`HtmlToPdfError`; success returns the resolved output path. -/
def html_to_pdf (w : World) (html : Option String) (html_path : Option String)
    (output_pdf_path : String) (base_dir : Option String)
    (pdf : PdfOptions) (render : RenderOptions) : Except PyError String × List Ev :=
  if html.isNone = html_path.isNone then
    (Except.error (PyError.valueError cfgErrMsg), [])
  else
    let out := w.resolve output_pdf_path
    let ev1 := [Ev.mkdirParents (w.parent out)]
    match html_path with
    | some hp0 =>
      let hp := w.resolve hp0
      if w.pathExists hp = true then
        afterRead w out (ev1 ++ [Ev.readHtmlFile hp]) (w.readFile hp).toList
          (base_dir.getD (w.parent hp)) render
      else
        (Except.error (PyError.fileNotFound ("HTML topilmadi: " ++ hp)), ev1)
    | none =>
      afterRead w out ev1 (html.getD ("")).toList (base_dir.getD w.cwd) render

/-- Discriminator for the domain error kind `HtmlToPdfError`. -/
def isDomainError : Except PyError String → Bool
  | Except.error (PyError.htmlToPdfError _) => true
  | _ => false

/-! ### route_handler -/

/-- The decision of the installed interception handler for one request. -/
inductive RouteAction
  | continue_
  | abort

/-- `url.startswith("file://")`. -/
def startsWithFileScheme (url : String) : Bool :=
  "file://".toList.isPrefixOf url.toList

/-- The `route_handler` installed by `page.route("**/*", ...)` when network
access is disallowed: continue local-file requests, abort everything else. -/
def route_handler (url : String) : RouteAction :=
  if startsWithFileScheme url = true then RouteAction.continue_ else RouteAction.abort

/-! ### CLI (`parse_args` defaults and `main`) -/

/-- Python `str.split(",")` on a character list (no token collapsing; the
empty string yields one empty token). -/
def splitCommaAux : List Char → List Char → List (List Char)
  | [], acc => [acc.reverse]
  | c :: cs, acc =>
    if c = ',' then acc.reverse :: splitCommaAux cs []
    else splitCommaAux cs (c :: acc)

/-- `s.split(",")` for a character list. -/
def pySplitComma (s : List Char) : List (List Char) := splitCommaAux s []

/-- Python `str.strip()` (ASCII whitespace at both ends). -/
def pyStrip (s : List Char) : List Char :=
  ((s.dropWhile pySpace).reverse.dropWhile pySpace).reverse

/-- `[x.strip() for x in args.margin.split(",")]`. -/
def splitMargin (s : String) : List String :=
  (pySplitComma s.toList).map (fun t => String.mk (pyStrip t))

/-- The parsed CLI arguments, with `argparse` defaults. -/
structure Args where
  input : String
  output : String := "out.pdf"
  base_dir : Option String := none
  css : Option String := none
  no_network : Bool := false
  timeout : Int := 60000
  format : String := "A4"
  margin : String := "16mm,14mm,16mm,14mm"
  header_footer : Bool := false
  wait_until : WaitUntil := WaitUntil.networkidle

/-- The usage message printed when the margin does not unpack. -/
def marginErrMsg : String := "Margin formati noto’g’ri. Masalan: 16mm,14mm,16mm,14mm"

/-- `_default_footer()`: the built-in footer template with the
page-number / total-pages indicator. -/
def default_footer : String :=
  "\n    <div style=\"width:100%; font-size:9px; color:#666; padding:0 10mm;\">\n      <div style=\"float:left;\">Generated</div>\n      <div style=\"float:right;\">\n        <span class=\"pageNumber\"></span> / <span class=\"totalPages\"></span>\n      </div>\n    </div>\n    "

/-- The `PdfOptions` value built by `main` from the parsed margin tokens,
including the header/footer mutation guarded by `--header-footer`. -/
def mainPdfOpts (a : Args) (t r b l : String) : PdfOptions :=
  let p0 : PdfOptions :=
    { format := some a.format, margin_top := t, margin_right := r,
      margin_bottom := b, margin_left := l }
  if a.header_footer = true then
    { p0 with display_header_footer := true, footer_template := default_footer }
  else p0

/-- The `RenderOptions` value built by `main`. -/
def mainRenderOpts (a : Args) : RenderOptions :=
  { timeout_ms := a.timeout, wait_until := a.wait_until,
    allow_network := !a.no_network, extra_css_path := a.css }

/-- Observable outcome of `main` up to the single conversion call: either a
`sys.exit` at the CLI boundary (no rendering attempted), or an invocation of
`html_to_pdf` with the assembled options. -/
inductive CliOutcome
  | exited (code : Nat) (msg : String)
  | invoked (pdf : PdfOptions) (render : RenderOptions)
      (input output : String) (base_dir : Option String)

/-- `main()` (named `cli_main` here since `main` is reserved): margin unpacking with `sys.exit(2)` on failure, then the
conversion invocation. -/
def cli_main (a : Args) : CliOutcome :=
  match splitMargin a.margin with
  | [t, r, b, l] =>
    CliOutcome.invoked (mainPdfOpts a t r b l) (mainRenderOpts a)
      a.input a.output a.base_dir
  | _ => CliOutcome.exited 2 marginErrMsg

/-! ### Concrete worlds and option values for witnesses/counterexamples -/

/-- Default `PdfOptions()`. -/
def pdfDef : PdfOptions := {}

/-- Default `RenderOptions()`. -/
def renderDef : RenderOptions := {}

/-- `RenderOptions` with network access disallowed (`--no-network`). -/
def renderNoNet : RenderOptions := { allow_network := false }

/-- A concrete world in which every external operation succeeds. -/
def w0 : World :=
  { resolve := id, parent := id, cwd := "/", asUri := id,
    pathExists := fun _ => true, readFile := fun _ => "",
    launchOk := true, newContextOk := true, newPageOk := true,
    routeOk := true, emulateOk := true, gotoOk := true,
    fontsOk := true, pdfOk := true, failMsg := "boom" }

/-- A world whose file system is empty. -/
def w1 : World := { w0 with pathExists := fun _ => false }

/-- A world in which `page.emulate_media` raises. -/
def w2 : World := { w0 with emulateOk := false }

/-- A world in which `page.goto` raises. -/
def w3 : World := { w0 with gotoOk := false }

/-- Concrete CLI arguments with a malformed `--margin` value. -/
def argsBad : Args := { input := "page.html", margin := "bad" }

/-- No match of the opening-head regex starts strictly inside `A` when the
scan continues into `s`. -/
def NoOpenBefore (A s : List Char) : Prop :=
  ∀ i, i < A.length → matchHeadAt (A.drop i ++ s) = none

/-! ### Helper lemmas about lists and the regex-matching primitives -/

theorem take_app_le {α : Type} :
    ∀ (n : Nat) (l₁ l₂ : List α), n ≤ l₁.length → (l₁ ++ l₂).take n = l₁.take n := by
  intro n
  induction n with
  | zero => intro l₁ l₂ _; rfl
  | succ n ih =>
    intro l₁ l₂ h
    cases l₁ with
    | nil => simp at h
    | cons a l₁ =>
      simp only [List.cons_append, List.take_succ_cons]
      rw [ih l₁ l₂ (by simpa using h)]

theorem drop_app_le {α : Type} :
    ∀ (n : Nat) (l₁ l₂ : List α), n ≤ l₁.length → (l₁ ++ l₂).drop n = l₁.drop n ++ l₂ := by
  intro n
  induction n with
  | zero => intro l₁ l₂ _; rfl
  | succ n ih =>
    intro l₁ l₂ h
    cases l₁ with
    | nil => simp at h
    | cons a l₁ =>
      simp only [List.cons_append, List.drop_succ_cons]
      exact ih l₁ l₂ (by simpa using h)

theorem splitAtGt_shape :
    ∀ (l a b : List Char), splitAtGt l = some (a, b) →
      l = a ++ b ∧ ∃ m, a = m ++ ['>'] ∧ '>' ∉ m := by
  intro l
  induction l with
  | nil => intro a b h; simp [splitAtGt] at h
  | cons c cs ih =>
    intro a b h
    by_cases hc : c = '>'
    · subst hc
      simp only [splitAtGt, if_pos rfl, Option.some.injEq, Prod.mk.injEq] at h
      obtain ⟨rfl, rfl⟩ := h
      exact ⟨rfl, [], rfl, by simp⟩
    · simp only [splitAtGt, if_neg hc] at h
      rcases hrec : splitAtGt cs with _ | ⟨a', b'⟩ <;> rw [hrec] at h
      · simp at h
      · simp only [Option.some.injEq, Prod.mk.injEq] at h
        obtain ⟨rfl, rfl⟩ := h
        obtain ⟨hl, m, hm, hmem⟩ := ih a' b' hrec
        refine ⟨by simp [hl], c :: m, by simp [hm], ?_⟩
        intro hin
        rcases List.mem_cons.mp hin with h1 | h2
        · exact hc h1.symm
        · exact hmem h2

theorem splitAtGt_gtfree_append :
    ∀ (m X : List Char), '>' ∉ m →
      splitAtGt (m ++ '>' :: X) = some (m ++ ['>'], X) := by
  intro m
  induction m with
  | nil => intro X _; simp [splitAtGt]
  | cons c m ih =>
    intro X hm
    have hc : ¬(c = '>') := fun h => hm (by simp [h])
    simp only [List.cons_append, splitAtGt, List.append_eq, if_neg hc]
    rw [ih X (fun h => hm (List.mem_cons_of_mem _ h))]

theorem splitAtGt_isSome_of_mem :
    ∀ (l : List Char), '>' ∈ l → (splitAtGt l).isSome = true := by
  intro l
  induction l with
  | nil => intro h; simp at h
  | cons c cs ih =>
    intro h
    by_cases hc : c = '>'
    · simp [splitAtGt, hc]
    · have hcs : '>' ∈ cs := by
        rcases List.mem_cons.mp h with h1 | h2
        · exact absurd h1.symm hc
        · exact h2
      simp only [splitAtGt, if_neg hc]
      rcases ho : splitAtGt cs with _ | ⟨a, b⟩
      · have := ih hcs; rw [ho] at this; simp at this
      · simp

theorem matchHeadAt_none_of_take5 (s : List Char)
    (h : ¬((s.take 5).map Char.toLower = headPat)) : matchHeadAt s = none := by
  unfold matchHeadAt
  rw [if_neg h]

theorem matchHeadAt_shape (s tag rest : List Char)
    (h : matchHeadAt s = some (tag, rest)) :
    s = tag ++ rest ∧ (s.take 5).map Char.toLower = headPat ∧
      ∃ m, tag = s.take 5 ++ m ++ ['>'] ∧ '>' ∉ m := by
  unfold matchHeadAt at h
  by_cases hc : (s.take 5).map Char.toLower = headPat
  · rw [if_pos hc] at h
    rcases hg : splitAtGt (s.drop 5) with _ | ⟨a, b⟩ <;> rw [hg] at h
    · simp at h
    · simp only [Option.some.injEq, Prod.mk.injEq] at h
      obtain ⟨rfl, rfl⟩ := h
      obtain ⟨hl, m, hm, hmem⟩ := splitAtGt_shape _ _ _ hg
      refine ⟨?_, hc, m, ?_, hmem⟩
      · conv_lhs => rw [← List.take_append_drop 5 s]
        rw [hl]
        simp [List.append_assoc]
      · rw [hm]
        simp [List.append_assoc]
  · rw [if_neg hc] at h
    simp at h

theorem matchHeadAt_retag (s tag rest : List Char)
    (h : matchHeadAt s = some (tag, rest)) :
    ∀ X, matchHeadAt (tag ++ X) = some (tag, X) := by
  intro X
  obtain ⟨hs, hc, m, hm, hmem⟩ := matchHeadAt_shape s tag rest h
  have h5 : (s.take 5).length = 5 := by
    have hlen := congrArg List.length hc
    have hp5 : headPat.length = 5 := by decide
    simpa [hp5] using hlen
  have ht : (tag ++ X).take 5 = s.take 5 := by
    rw [hm, List.append_assoc, List.append_assoc]
    rw [take_app_le 5 (s.take 5) _ (le_of_eq h5.symm)]
    exact List.take_of_length_le (le_of_eq h5)
  have hd : (tag ++ X).drop 5 = m ++ '>' :: X := by
    rw [hm, List.append_assoc, List.append_assoc]
    rw [drop_app_le 5 (s.take 5) _ (le_of_eq h5.symm)]
    rw [List.drop_eq_nil_of_le (le_of_eq h5)]
    simp
  unfold matchHeadAt
  rw [ht, hd, if_pos hc, splitAtGt_gtfree_append m X hmem]
  rw [hm]
  simp [List.append_assoc]

theorem subOpen_of_split (ins : List Char) :
    ∀ (s A tag rest : List Char), splitHeadOpen s = some (A, tag, rest) →
      subFirstHeadOpen ins s = A ++ tag ++ ins ++ rest := by
  intro s
  induction s with
  | nil => intro A tag rest h; simp [splitHeadOpen] at h
  | cons c cs ih =>
    intro A tag rest h
    simp only [splitHeadOpen] at h
    rcases hm : matchHeadAt (c :: cs) with _ | ⟨t, r⟩ <;> rw [hm] at h
    · rcases hs : splitHeadOpen cs with _ | ⟨A', t', r'⟩ <;> rw [hs] at h
      · simp at h
      · simp only [Option.some.injEq, Prod.mk.injEq] at h
        obtain ⟨rfl, rfl, rfl⟩ := h
        simp only [subFirstHeadOpen]
        rw [hm, ih A' t' r' hs]
        simp
    · simp only [Option.some.injEq, Prod.mk.injEq] at h
      obtain ⟨rfl, rfl, rfl⟩ := h
      simp only [subFirstHeadOpen]
      rw [hm]
      simp

theorem subClose_of_split (ins : List Char) :
    ∀ (s A tag rest : List Char), splitHeadClose s = some (A, tag, rest) →
      subFirstHeadClose ins s = A ++ ins ++ tag ++ rest := by
  intro s
  induction s with
  | nil => intro A tag rest h; simp [splitHeadClose] at h
  | cons c cs ih =>
    intro A tag rest h
    simp only [splitHeadClose] at h
    rcases hm : matchCloseHeadAt (c :: cs) with _ | ⟨t, r⟩ <;> rw [hm] at h
    · rcases hs : splitHeadClose cs with _ | ⟨A', t', r'⟩ <;> rw [hs] at h
      · simp at h
      · simp only [Option.some.injEq, Prod.mk.injEq] at h
        obtain ⟨rfl, rfl, rfl⟩ := h
        simp only [subFirstHeadClose]
        rw [hm, ih A' t' r' hs]
        simp
    · simp only [Option.some.injEq, Prod.mk.injEq] at h
      obtain ⟨rfl, rfl, rfl⟩ := h
      simp only [subFirstHeadClose]
      rw [hm]
      simp

theorem subClose_of_none (ins : List Char) :
    ∀ (s : List Char), splitHeadClose s = none → subFirstHeadClose ins s = s := by
  intro s
  induction s with
  | nil => intro _; rfl
  | cons c cs ih =>
    intro h
    simp only [splitHeadClose] at h
    rcases hm : matchCloseHeadAt (c :: cs) with _ | ⟨t, r⟩ <;> rw [hm] at h
    · rcases hs : splitHeadClose cs with _ | ⟨A', t', r'⟩ <;> rw [hs] at h
      · simp only [subFirstHeadClose]
        rw [hm, ih hs]
      · simp at h
    · simp at h

theorem split_some_of_noOpen :
    ∀ (A s tag rest : List Char), NoOpenBefore A s →
      matchHeadAt s = some (tag, rest) →
      splitHeadOpen (A ++ s) = some (A, tag, rest) := by
  intro A
  induction A with
  | nil =>
    intro s tag rest _ hm
    rcases s with _ | ⟨c, cs⟩
    · have hnil : matchHeadAt ([] : List Char) = none := by decide
      rw [hnil] at hm; simp at hm
    · simp only [List.nil_append, splitHeadOpen]
      rw [hm]
  | cons c A ih =>
    intro s tag rest hno hm
    have h0 : matchHeadAt (c :: (A ++ s)) = none := by
      have := hno 0 (by simp)
      simpa using this
    simp only [List.cons_append, splitHeadOpen, List.append_eq]
    rw [h0, ih s tag rest ?_ hm]
    intro i hi
    have := hno (i + 1) (by simpa using Nat.succ_lt_succ hi)
    simpa using this

theorem split_noOpen :
    ∀ (s A tag rest : List Char), splitHeadOpen s = some (A, tag, rest) →
      s = A ++ (tag ++ rest) ∧ NoOpenBefore A (tag ++ rest) ∧
        matchHeadAt (tag ++ rest) = some (tag, rest) := by
  intro s
  induction s with
  | nil => intro A tag rest h; simp [splitHeadOpen] at h
  | cons c cs ih =>
    intro A tag rest h
    simp only [splitHeadOpen] at h
    rcases hm : matchHeadAt (c :: cs) with _ | ⟨t, r⟩ <;> rw [hm] at h
    · rcases hs : splitHeadOpen cs with _ | ⟨A', t', r'⟩ <;> rw [hs] at h
      · simp at h
      · simp only [Option.some.injEq, Prod.mk.injEq] at h
        obtain ⟨rfl, rfl, rfl⟩ := h
        obtain ⟨hcs, hno, hmm⟩ := ih A' t' r' hs
        refine ⟨by simp [hcs], ?_, hmm⟩
        intro i hi
        rcases i with _ | i
        · simpa [← hcs] using hm
        · have hi' : i < A'.length := by simpa using hi
          simpa using hno i hi'
    · simp only [Option.some.injEq, Prod.mk.injEq] at h
      obtain ⟨rfl, rfl, rfl⟩ := h
      obtain ⟨hs2, _, _⟩ := matchHeadAt_shape _ _ _ hm
      refine ⟨by simpa using hs2, ?_, by rw [← hs2]; exact hm⟩
      intro i hi
      simp at hi

theorem matchHeadAt_none_retail (D tag rest Y : List Char)
    (hshape : matchHeadAt (tag ++ rest) = some (tag, rest))
    (hnone : matchHeadAt (D ++ (tag ++ rest)) = none) :
    matchHeadAt (D ++ (tag ++ Y)) = none := by
  obtain ⟨_, hc, m, hm, hmem⟩ := matchHeadAt_shape _ _ _ hshape
  have h5 : ((tag ++ rest).take 5).length = 5 := by
    have hlen := congrArg List.length hc
    have hp5 : headPat.length = 5 := by decide
    simpa [hp5] using hlen
  have htlen : tag.length = 5 + m.length + 1 := by
    rw [hm]
    simp [List.length_append, h5]
    omega
  have hDt : 5 ≤ (D ++ tag).length := by
    rw [List.length_append, htlen]
    omega
  have ht1 : (D ++ (tag ++ rest)).take 5 = (D ++ tag).take 5 := by
    rw [← List.append_assoc]
    exact take_app_le 5 (D ++ tag) rest hDt
  have ht2 : (D ++ (tag ++ Y)).take 5 = (D ++ tag).take 5 := by
    rw [← List.append_assoc]
    exact take_app_le 5 (D ++ tag) Y hDt
  by_cases hcc : ((D ++ tag).take 5).map Char.toLower = headPat
  · exfalso
    have hcond : ((D ++ (tag ++ rest)).take 5).map Char.toLower = headPat := by
      rw [ht1]; exact hcc
    have hsplitform : D ++ (tag ++ rest) =
        (D ++ ((tag ++ rest).take 5 ++ m)) ++ '>' :: rest := by
      conv_lhs => rw [hm]
      simp [List.append_assoc]
    have hlen2 : 5 ≤ (D ++ ((tag ++ rest).take 5 ++ m)).length := by
      rw [List.length_append, List.length_append, h5]
      omega
    have hgt : '>' ∈ (D ++ (tag ++ rest)).drop 5 := by
      rw [hsplitform, drop_app_le 5 _ _ hlen2]
      simp
    unfold matchHeadAt at hnone
    rw [if_pos hcond] at hnone
    rcases hsp : splitAtGt ((D ++ (tag ++ rest)).drop 5) with _ | ⟨pa, pb⟩
    · have := splitAtGt_isSome_of_mem _ hgt
      rw [hsp] at this; simp at this
    · rw [hsp] at hnone; simp at hnone
  · apply matchHeadAt_none_of_take5
    rw [ht2]; exact hcc

theorem noOpen_retail (A tag rest Y : List Char)
    (hm : matchHeadAt (tag ++ rest) = some (tag, rest))
    (hno : NoOpenBefore A (tag ++ rest)) : NoOpenBefore A (tag ++ Y) := by
  intro i hi
  exact matchHeadAt_none_retail (A.drop i) tag rest Y hm (hno i hi)

theorem containsSub_append_of (p : List Char) :
    ∀ (X s : List Char), containsSub p s = true → containsSub p (X ++ s) = true := by
  intro X
  induction X with
  | nil => intro s h; simpa using h
  | cons c X ih =>
    intro s h
    simp only [List.cons_append, containsSub, List.append_eq]
    rw [ih s h]
    simp

theorem containsSub_of_isPrefixOf (p s : List Char) (h : p.isPrefixOf s = true) :
    containsSub p s = true := by
  cases s with
  | nil => simpa [containsSub] using h
  | cons c cs => simp [containsSub, h]

theorem isPrefixOf_append_of (p t Y : List Char) (h : p.isPrefixOf t = true) :
    p.isPrefixOf (t ++ Y) = true := by
  rw [List.isPrefixOf_iff_prefix] at h ⊢
  exact h.trans (List.prefix_append t Y)

theorem containsSub_parts (p X t Y : List Char) (h : p.isPrefixOf (lowerStr t) = true) :
    containsSub p (lowerStr (X ++ (t ++ Y))) = true := by
  have hmaps : lowerStr (X ++ (t ++ Y)) = lowerStr X ++ (lowerStr t ++ lowerStr Y) := by
    simp [lowerStr]
  rw [hmaps]
  exact containsSub_append_of p (lowerStr X) _
    (containsSub_of_isPrefixOf _ _ (isPrefixOf_append_of _ _ _ h))

theorem headPat_prefix_of_match (s tag rest : List Char)
    (h : matchHeadAt s = some (tag, rest)) :
    headPat.isPrefixOf (lowerStr tag) = true := by
  obtain ⟨_, hc, m, hm, _⟩ := matchHeadAt_shape _ _ _ h
  rw [List.isPrefixOf_iff_prefix, hm]
  have hmaps : lowerStr ((s.take 5 ++ m) ++ ['>']) =
      headPat ++ (lowerStr m ++ lowerStr ['>']) := by
    simp only [lowerStr, List.map_append, List.append_assoc]
    rw [hc]
  rw [hmaps]
  exact List.prefix_append _ _

theorem containsSub_of_split (html A tag rest : List Char)
    (h : splitHeadOpen html = some (A, tag, rest)) :
    containsSub headPat (lowerStr html) = true := by
  obtain ⟨hs, _, hm⟩ := split_noOpen _ _ _ _ h
  rw [hs]
  exact containsSub_parts _ _ _ _ (headPat_prefix_of_match _ _ _ hm)

theorem countSub_le_append (p X s : List Char) : countSub p s ≤ countSub p (X ++ s) := by
  induction X with
  | nil => simp
  | cons c X ih =>
    simp only [List.cons_append, countSub, List.append_eq]
    exact le_trans ih (Nat.le_add_left _ _)

theorem countSub_self_append (p s : List Char) (hp : p ≠ []) :
    1 + countSub p s ≤ countSub p (p ++ s) := by
  rcases p with _ | ⟨c, p'⟩
  · exact absurd rfl hp
  · simp only [List.cons_append, countSub, List.append_eq]
    have hpre : (c :: p').isPrefixOf (c :: (p' ++ s)) = true := by
      rw [List.isPrefixOf_iff_prefix]
      simpa using List.prefix_append (c :: p') s
    have hle := countSub_le_append (c :: p') p' s
    rw [if_pos hpre]
    omega

theorem matchHeadAt_headTag (X : List Char) :
    matchHeadAt (headTagChars ++ X) = some (headTagChars, X) := rfl

theorem noOpen_docPre21 (X : List Char) : NoOpenBefore docPre21 (headTagChars ++ X) := by
  intro i hi
  have hd21 : docPre21.length = 21 := rfl
  have hi21 : i < 21 := by rw [hd21] at hi; exact hi
  have hassoc : docPre21.drop i ++ (headTagChars ++ X) =
      (docPre21.drop i ++ headTagChars) ++ X := by
    simp [List.append_assoc]
  rw [hassoc]
  apply matchHeadAt_none_of_take5
  have hht : headTagChars.length = 6 := rfl
  have hlen : 5 ≤ (docPre21.drop i ++ headTagChars).length := by
    rw [List.length_append, List.length_drop, hd21, hht]
    omega
  rw [take_app_le 5 _ X hlen]
  interval_cases i <;> decide

theorem inject_skeleton_split (Q : List Char) :
    splitHeadOpen (docPre21 ++ (headTagChars ++ Q)) = some (docPre21, headTagChars, Q) :=
  split_some_of_noOpen _ _ _ _ (noOpen_docPre21 Q) (matchHeadAt_headTag Q)

/-! ### Claim theorems: HtmlPreparer -/

/-- C2 (amended): for every HTML input with no case-insensitive occurrence
of the substring `<head`, `_inject_base_tag` wraps the input in the minimal
document skeleton whose head holds exactly the base tag and whose body is
the original text verbatim. -/
theorem inject_base_tag_skeleton_of_no_head_marker (html href : List Char)
    (h : containsSub headPat (lowerStr html) = false) :
    inject_base_tag html href = docPre ++ baseTagOf href ++ docMid ++ html ++ docSuf := by
  unfold inject_base_tag
  rw [if_neg (by simp [h])]

theorem inject_base_tag_skeleton_witness :
    containsSub headPat (lowerStr ("hello".toList)) = false ∧
    inject_base_tag ("hello".toList) ("u".toList) =
      docPre ++ baseTagOf ("u".toList) ++ docMid ++ "hello".toList ++ docSuf :=
  ⟨by decide,
    inject_base_tag_skeleton_of_no_head_marker ("hello".toList) ("u".toList) (by decide)⟩

/-- C2 (counterexample): `<header>x</header>` contains no head element, yet
`_inject_base_tag` does not produce the skeleton — the substring test
`"<head" in html.lower()` accepts `<header>` and the base tag is injected
into the header tag instead. -/
theorem inject_base_tag_header_no_skeleton :
    inject_base_tag ("<header>x</header>".toList) ("u".toList) =
      "<header>\n  <base href=\"u\">x</header>".toList ∧
    inject_base_tag ("<header>x</header>".toList) ("u".toList) ≠
      docPre ++ baseTagOf ("u".toList) ++ docMid ++ "<header>x</header>".toList ++ docSuf :=
  ⟨by decide, by decide⟩

/-- C4 (amended): for every backslash-free base href (on which the
replacement template of `re.sub` inserts the base tag literally), whenever
the lowered input contains the substring `<head` and the regex
`(?i)<head[^>]*>` has a match, the base tag (preceded by a newline and two
spaces) is inserted immediately after the first match, and everything
before and after the match is unchanged. -/
theorem inject_base_tag_insert_after_first_head_match (html href A tag rest : List Char)
    (hbs : ('\\' : Char) ∉ href)
    (hc : containsSub headPat (lowerStr html) = true)
    (hs : splitHeadOpen html = some (A, tag, rest)) :
    inject_base_tag html href = A ++ tag ++ baseIns href ++ rest := by
  unfold inject_base_tag
  rw [if_pos hc]
  exact subOpen_of_split _ _ _ _ _ hs

theorem inject_base_tag_insert_witness :
    (('\\' : Char) ∉ ("u".toList)) ∧
    splitHeadOpen ("<head>z".toList) = some ([], "<head>".toList, "z".toList) ∧
    inject_base_tag ("<head>z".toList) ("u".toList) =
      [] ++ "<head>".toList ++ baseIns ("u".toList) ++ "z".toList :=
  ⟨by decide, by decide,
    inject_base_tag_insert_after_first_head_match ("<head>z".toList) ("u".toList)
      [] ("<head>".toList) ("z".toList) (by decide) (by decide) (by decide)⟩

/-- C4 (counterexample): on `<header>a</header><head></head>` — whose first
opening head tag is `<head>` — the base tag is injected after `<header>`,
not after the opening head tag, because the regex `<head[^>]*>` first
matches `<header>`. -/
theorem inject_base_tag_matches_header_tag :
    inject_base_tag ("<header>a</header><head></head>".toList) ("u".toList) =
      "<header>\n  <base href=\"u\">a</header><head></head>".toList ∧
    inject_base_tag ("<header>a</header><head></head>".toList) ("u".toList) ≠
      "<header>a</header><head>\n  <base href=\"u\"></head>".toList :=
  ⟨by decide, by decide⟩

/-- C3 (amended): for backslash-free CSS text (on which the replacement
template of `re.sub` inserts the style block literally), when the lowered
input contains the substring `<head` and the closing regex `(?i)</head\s*>`
has a match, `_wrap_with_css` inserts the style block (followed by a
newline) immediately before the first closing match, leaving everything
else unchanged, so the closing tag is shifted exactly by the inserted
content's length; when the input has no `<head` substring — even if it does
contain a head-closing tag — the input is wrapped in a fresh skeleton
instead; and when the input contains `<head` but the closing regex has no
match, the input is returned unchanged. -/
theorem wrap_with_css_insert_before_first_close (html css : List Char) :
    (∀ A tag rest, ('\\' : Char) ∉ css → containsSub headPat (lowerStr html) = true →
      splitHeadClose html = some (A, tag, rest) →
      wrap_with_css html css = A ++ styleIns css ++ tag ++ rest) ∧
    (containsSub headPat (lowerStr html) = false →
      wrap_with_css html css = docPre ++ styleBlockOf css ++ docMid ++ html ++ docSuf) ∧
    (('\\' : Char) ∉ css → containsSub headPat (lowerStr html) = true →
      splitHeadClose html = none → wrap_with_css html css = html) := by
  refine ⟨?_, ?_, ?_⟩
  · intro A tag rest _ hc hs
    unfold wrap_with_css
    rw [if_pos hc]
    exact subClose_of_split _ _ _ _ _ hs
  · intro h
    unfold wrap_with_css
    rw [if_neg (by simp [h])]
  · intro _ hc hs
    unfold wrap_with_css
    rw [if_pos hc]
    exact subClose_of_none _ _ hs

theorem wrap_with_css_insert_witness :
    (('\\' : Char) ∉ ("p".toList)) ∧
    splitHeadClose ("<head></head>".toList) =
      some ("<head>".toList, "</head>".toList, ([] : List Char)) ∧
    wrap_with_css ("<head></head>".toList) ("p".toList) =
      "<head>".toList ++ styleIns ("p".toList) ++ "</head>".toList ++ ([] : List Char) :=
  ⟨by decide, by decide,
    (wrap_with_css_insert_before_first_close ("<head></head>".toList) ("p".toList)).1
      ("<head>".toList) ("</head>".toList) [] (by decide) (by decide) (by decide)⟩

/-- C3 (counterexample): the input `</head>` has a head-closing tag, but the
branch test looks for the substring `<head`, which `</head>` does not
contain; the function therefore wraps the input in a fresh skeleton and does
not insert the style block before the existing closing tag. -/
theorem wrap_with_css_close_without_open :
    wrap_with_css ("</head>".toList) ("p".toList) =
      docPre ++ styleBlockOf ("p".toList) ++ docMid ++ "</head>".toList ++ docSuf ∧
    wrap_with_css ("</head>".toList) ("p".toList) ≠
      styleIns ("p".toList) ++ "</head>".toList :=
  ⟨by decide, by decide⟩

/-- C9 (amended): `_inject_base_tag` is not idempotent: for every
backslash-free base href (on which the replacement template of `re.sub`
inserts the base tag literally) and every input on which the first
application actually inserts (`insertOk`), applying the function twice on
its own output yields at least two base tags and a strictly longer result,
because first-match insertion succeeds again on the head tag matched or
created by the first application. -/
theorem inject_twice_two_base_tags (html href : List Char)
    (hbs : ('\\' : Char) ∉ href) (h : insertOk html = true) :
    2 ≤ countSub (baseTagOf href) (inject_base_tag (inject_base_tag html href) href) ∧
    (inject_base_tag html href).length <
      (inject_base_tag (inject_base_tag html href) href).length := by
  have hform : baseTagOf href = '<' :: (("base href=\"".toList ++ href) ++ "\">".toList) := rfl
  have hbne : baseTagOf href ≠ [] := by rw [hform]; simp
  have hbpos : 0 < (baseTagOf href).length := by rw [hform]; simp
  by_cases hc : containsSub headPat (lowerStr html) = true
  · have hsome : (splitHeadOpen html).isSome = true := by
      unfold insertOk at h
      rw [if_pos hc] at h
      exact h
    rcases hso : splitHeadOpen html with _ | ⟨A, tag, rest⟩
    · rw [hso] at hsome; simp at hsome
    · obtain ⟨_, hno, hm⟩ := split_noOpen _ _ _ _ hso
      have h1 : inject_base_tag html href = A ++ tag ++ baseIns href ++ rest := by
        unfold inject_base_tag
        rw [if_pos hc]
        exact subOpen_of_split _ _ _ _ _ hso
      have hr1eq : inject_base_tag html href = A ++ (tag ++ (baseIns href ++ rest)) := by
        rw [h1]; simp [List.append_assoc]
      have hsplit2 : splitHeadOpen (A ++ (tag ++ (baseIns href ++ rest))) =
          some (A, tag, baseIns href ++ rest) :=
        split_some_of_noOpen _ _ _ _ (noOpen_retail A tag rest _ hm hno)
          (matchHeadAt_retag _ _ _ hm _)
      have hc2 : containsSub headPat
          (lowerStr (A ++ (tag ++ (baseIns href ++ rest)))) = true :=
        containsSub_parts _ _ _ _ (headPat_prefix_of_match _ _ _ hm)
      have h2 : inject_base_tag (inject_base_tag html href) href =
          A ++ tag ++ baseIns href ++ (baseIns href ++ rest) := by
        rw [hr1eq]
        unfold inject_base_tag
        rw [if_pos hc2]
        exact subOpen_of_split _ _ _ _ _ hsplit2
      constructor
      · rw [h2]
        have hre : A ++ tag ++ baseIns href ++ (baseIns href ++ rest) =
            A ++ (tag ++ ("\n  ".toList ++ (baseTagOf href ++
              ("\n  ".toList ++ (baseTagOf href ++ rest))))) := by
          simp [baseIns, List.append_assoc]
        rw [hre]
        have c2 : 1 + countSub (baseTagOf href) rest ≤
            countSub (baseTagOf href) (baseTagOf href ++ rest) :=
          countSub_self_append _ _ hbne
        have c3 : countSub (baseTagOf href) (baseTagOf href ++ rest) ≤
            countSub (baseTagOf href) ("\n  ".toList ++ (baseTagOf href ++ rest)) :=
          countSub_le_append _ _ _
        have c1 : 1 + countSub (baseTagOf href) ("\n  ".toList ++ (baseTagOf href ++ rest)) ≤
            countSub (baseTagOf href)
              (baseTagOf href ++ ("\n  ".toList ++ (baseTagOf href ++ rest))) :=
          countSub_self_append _ _ hbne
        have c4 : countSub (baseTagOf href)
              (baseTagOf href ++ ("\n  ".toList ++ (baseTagOf href ++ rest))) ≤
            countSub (baseTagOf href)
              ("\n  ".toList ++ (baseTagOf href ++ ("\n  ".toList ++ (baseTagOf href ++ rest)))) :=
          countSub_le_append _ _ _
        have c5 : countSub (baseTagOf href)
              ("\n  ".toList ++ (baseTagOf href ++ ("\n  ".toList ++ (baseTagOf href ++ rest)))) ≤
            countSub (baseTagOf href)
              (tag ++ ("\n  ".toList ++ (baseTagOf href ++
                ("\n  ".toList ++ (baseTagOf href ++ rest))))) :=
          countSub_le_append _ _ _
        have c6 : countSub (baseTagOf href)
              (tag ++ ("\n  ".toList ++ (baseTagOf href ++
                ("\n  ".toList ++ (baseTagOf href ++ rest))))) ≤
            countSub (baseTagOf href)
              (A ++ (tag ++ ("\n  ".toList ++ (baseTagOf href ++
                ("\n  ".toList ++ (baseTagOf href ++ rest)))))) :=
          countSub_le_append _ _ _
        omega
      · rw [h2, h1]
        simp only [List.length_append, baseIns]
        omega
  · have h1 : inject_base_tag html href =
        docPre ++ baseTagOf href ++ docMid ++ html ++ docSuf := by
      unfold inject_base_tag
      rw [if_neg hc]
    have hr1eq : inject_base_tag html href =
        docPre21 ++ (headTagChars ++ (baseTagOf href ++ (docMid ++ (html ++ docSuf)))) := by
      rw [h1]
      have hdoc : docPre = docPre21 ++ headTagChars := rfl
      rw [hdoc]
      simp [List.append_assoc]
    have hc2 : containsSub headPat
        (lowerStr (docPre21 ++ (headTagChars ++
          (baseTagOf href ++ (docMid ++ (html ++ docSuf)))))) = true :=
      containsSub_parts _ _ _ _ (by decide)
    have h2 : inject_base_tag (inject_base_tag html href) href =
        docPre21 ++ headTagChars ++ baseIns href ++
          (baseTagOf href ++ (docMid ++ (html ++ docSuf))) := by
      rw [hr1eq]
      unfold inject_base_tag
      rw [if_pos hc2]
      exact subOpen_of_split _ _ _ _ _ (inject_skeleton_split _)
    constructor
    · rw [h2]
      have hre : docPre21 ++ headTagChars ++ baseIns href ++
            (baseTagOf href ++ (docMid ++ (html ++ docSuf))) =
          (docPre21 ++ (headTagChars ++ "\n  ".toList)) ++
            (baseTagOf href ++ (baseTagOf href ++ (docMid ++ (html ++ docSuf)))) := by
        simp [baseIns, List.append_assoc]
      rw [hre]
      have c2 : 1 + countSub (baseTagOf href) (docMid ++ (html ++ docSuf)) ≤
          countSub (baseTagOf href) (baseTagOf href ++ (docMid ++ (html ++ docSuf))) :=
        countSub_self_append _ _ hbne
      have c1 : 1 + countSub (baseTagOf href)
            (baseTagOf href ++ (docMid ++ (html ++ docSuf))) ≤
          countSub (baseTagOf href)
            (baseTagOf href ++ (baseTagOf href ++ (docMid ++ (html ++ docSuf)))) :=
        countSub_self_append _ _ hbne
      have c3 : countSub (baseTagOf href)
            (baseTagOf href ++ (baseTagOf href ++ (docMid ++ (html ++ docSuf)))) ≤
          countSub (baseTagOf href) ((docPre21 ++ (headTagChars ++ "\n  ".toList)) ++
            (baseTagOf href ++ (baseTagOf href ++ (docMid ++ (html ++ docSuf))))) :=
        countSub_le_append _ _ _
      omega
    · rw [h2, h1]
      simp only [List.length_append, baseIns]
      have hdlen : docPre.length = docPre21.length + headTagChars.length := rfl
      omega

theorem inject_twice_two_base_tags_witness :
    (('\\' : Char) ∉ ("u".toList)) ∧
    insertOk ("x".toList) = true ∧
    2 ≤ countSub (baseTagOf ("u".toList))
      (inject_base_tag (inject_base_tag ("x".toList) ("u".toList)) ("u".toList)) :=
  ⟨by decide, by decide,
    (inject_twice_two_base_tags ("x".toList) ("u".toList) (by decide) (by decide)).1⟩

/-- C9 (counterexample): on the input `<head` (the substring is present but
the regex `<head[^>]*>` never matches, since there is no `'>'`), both
applications return the input unchanged, so applying the function twice
yields zero base tags — not two. -/
theorem inject_twice_unclosed_head :
    inject_base_tag (inject_base_tag ("<head".toList) ("u".toList)) ("u".toList) =
      "<head".toList ∧
    countSub (baseTagOf ("u".toList))
      (inject_base_tag (inject_base_tag ("<head".toList) ("u".toList)) ("u".toList)) = 0 :=
  ⟨by decide, by decide⟩

/-! ### Claim theorems: orchestration, route policy, CLI -/

/-- C5: whenever both or neither of the inline HTML text and the HTML file
path are supplied, `html_to_pdf` fails with the input-configuration
`ValueError` and its event trace is empty — no directory creation, no file
read, no file write. -/
theorem invalid_config_no_io (w : World) (html html_path : Option String)
    (out : String) (bd : Option String) (p : PdfOptions) (r : RenderOptions)
    (h : html.isNone = html_path.isNone) :
    html_to_pdf w html html_path out bd p r =
      (Except.error (PyError.valueError cfgErrMsg), ([] : List Ev)) := by
  unfold html_to_pdf
  rw [if_pos h]

theorem invalid_config_no_io_witness :
    ((none : Option String).isNone = (none : Option String).isNone) ∧
    html_to_pdf w0 none none ("out.pdf") none pdfDef renderDef =
      (Except.error (PyError.valueError cfgErrMsg), ([] : List Ev)) :=
  ⟨rfl, invalid_config_no_io w0 none none ("out.pdf") none pdfDef renderDef rfl⟩

/-- C10: when the HTML file path does not exist, `html_to_pdf` raises the
not-found failure only after resolving the output path and creating its
parent directories: the trace at that exit is exactly the mkdir of the
resolved output's parent, so the file system is not left unchanged. -/
theorem missing_html_after_mkdir (w : World) (hp out : String) (bd : Option String)
    (p : PdfOptions) (r : RenderOptions)
    (h : w.pathExists (w.resolve hp) = false) :
    html_to_pdf w none (some hp) out bd p r =
      (Except.error (PyError.fileNotFound ("HTML topilmadi: " ++ w.resolve hp)),
        [Ev.mkdirParents (w.parent (w.resolve out))]) := by
  unfold html_to_pdf
  rw [if_neg (by simp)]
  simp [h]

theorem missing_html_after_mkdir_witness :
    w1.pathExists (w1.resolve ("in.html")) = false ∧
    html_to_pdf w1 none (some ("in.html")) ("o.pdf") none pdfDef renderDef =
      (Except.error (PyError.fileNotFound ("HTML topilmadi: " ++ w1.resolve ("in.html"))),
        [Ev.mkdirParents (w1.parent (w1.resolve ("o.pdf")))]) :=
  ⟨rfl, missing_html_after_mkdir w1 ("in.html") ("o.pdf") none pdfDef renderDef rfl⟩

/-- C1 (amended): the error taxonomy of `html_to_pdf`.  An invalid input
configuration raises `ValueError` (not the domain error); a missing HTML
file and a missing extra-CSS file each raise `FileNotFoundError` (not the
domain error); failures of `page.goto` and of `page.pdf` inside the
navigation/export try block raise `HtmlToPdfError` wrapping the underlying
cause message; and on success the resolved absolute output path is
returned. -/
theorem html_to_pdf_error_taxonomy (w : World) (htmlStr hp cp out : String)
    (bd : Option String) (p : PdfOptions) (r : RenderOptions) :
    ((html_to_pdf w none none out bd p r).1 =
      Except.error (PyError.valueError cfgErrMsg)) ∧
    ((html_to_pdf w (some htmlStr) (some hp) out bd p r).1 =
      Except.error (PyError.valueError cfgErrMsg)) ∧
    (w.pathExists (w.resolve hp) = false →
      (html_to_pdf w none (some hp) out bd p r).1 =
        Except.error (PyError.fileNotFound ("HTML topilmadi: " ++ w.resolve hp))) ∧
    (r.extra_css_path = some cp → w.pathExists (w.resolve cp) = false →
      (html_to_pdf w (some htmlStr) none out bd p r).1 =
        Except.error (PyError.fileNotFound ("CSS topilmadi: " ++ w.resolve cp))) ∧
    (r.extra_css_path = none → w.launchOk = true → w.newContextOk = true →
      w.newPageOk = true → (r.allow_network = true ∨ w.routeOk = true) →
      w.emulateOk = true → w.gotoOk = false →
      (html_to_pdf w (some htmlStr) none out bd p r).1 =
        Except.error (PyError.htmlToPdfError (renderPre ++ w.failMsg))) ∧
    (r.extra_css_path = none → w.launchOk = true → w.newContextOk = true →
      w.newPageOk = true → (r.allow_network = true ∨ w.routeOk = true) →
      w.emulateOk = true → w.gotoOk = true → w.pdfOk = false →
      (html_to_pdf w (some htmlStr) none out bd p r).1 =
        Except.error (PyError.htmlToPdfError (renderPre ++ w.failMsg))) ∧
    (r.extra_css_path = none → w.launchOk = true → w.newContextOk = true →
      w.newPageOk = true → (r.allow_network = true ∨ w.routeOk = true) →
      w.emulateOk = true → w.gotoOk = true → w.pdfOk = true →
      (html_to_pdf w (some htmlStr) none out bd p r).1 = Except.ok (w.resolve out)) := by
  refine ⟨?_, ?_, ?_, ?_, ?_, ?_, ?_⟩
  · simp [html_to_pdf]
  · simp [html_to_pdf]
  · intro h
    unfold html_to_pdf
    rw [if_neg (by simp)]
    simp [h]
  · intro hcsseq hcssex
    unfold html_to_pdf
    rw [if_neg (by simp)]
    simp [afterRead, hcsseq, hcssex]
  · intro hcss hl hcx hpg hr he hg
    rcases hr with hr | hr <;>
      simp [html_to_pdf, afterRead, afterCss, renderStage, hcss, hl, hcx, hpg, hr, he, hg]
  · intro hcss hl hcx hpg hr he hg hpdf
    rcases hr with hr | hr <;>
      simp [html_to_pdf, afterRead, afterCss, renderStage, hcss, hl, hcx, hpg, hr, he, hg, hpdf]
  · intro hcss hl hcx hpg hr he hg hpdf
    rcases hr with hr | hr <;>
      simp [html_to_pdf, afterRead, afterCss, renderStage, hcss, hl, hcx, hpg, hr, he, hg, hpdf]

theorem html_to_pdf_error_taxonomy_witness :
    (html_to_pdf w0 (some ("x")) none ("out.pdf") none pdfDef renderDef).1 =
      Except.ok (w0.resolve ("out.pdf")) :=
  (html_to_pdf_error_taxonomy w0 ("x") ("dummy.html") ("extra.css") ("out.pdf") none pdfDef
    renderDef).2.2.2.2.2.2 rfl rfl rfl rfl (Or.inl rfl) rfl rfl rfl

/-- C1 (counterexample): the conversion call with neither input supplied
fails, but with a `ValueError`, not with the single domain error kind
`HtmlToPdfError` that the claim asserts for every failing call. -/
theorem config_error_not_domain_error :
    (html_to_pdf w0 none none ("out.pdf") none pdfDef renderDef).1 =
      Except.error (PyError.valueError cfgErrMsg) ∧
    isDomainError (html_to_pdf w0 none none ("out.pdf") none pdfDef renderDef).1 = false :=
  ⟨rfl, rfl⟩

/-- C6 (amended): once the browser, context and page are acquired and the
pre-try steps (route installation when network is disallowed, media
emulation) succeed, every exit of the navigation/export try block — goto
failure, export failure, or success — closes both the browsing context and
the browser via the `finally` clause. -/
theorem teardown_on_try_exit (w : World) (htmlStr out : String) (bd : Option String)
    (p : PdfOptions) (r : RenderOptions)
    (hcss : r.extra_css_path = none)
    (hl : w.launchOk = true) (hcx : w.newContextOk = true) (hpg : w.newPageOk = true)
    (hr : r.allow_network = true ∨ w.routeOk = true) (he : w.emulateOk = true) :
    Ev.closeContext ∈ (html_to_pdf w (some htmlStr) none out bd p r).2 ∧
    Ev.closeBrowser ∈ (html_to_pdf w (some htmlStr) none out bd p r).2 := by
  rcases hgb : w.gotoOk with _ | _
  · rcases hr with hr | hr <;>
      simp [html_to_pdf, afterRead, afterCss, renderStage, hcss, hl, hcx, hpg, hr, he, hgb]
  · rcases hpb : w.pdfOk with _ | _ <;> rcases hr with hr | hr <;>
      simp [html_to_pdf, afterRead, afterCss, renderStage, hcss, hl, hcx, hpg, hr, he, hgb, hpb]

theorem teardown_on_try_exit_witness :
    Ev.closeContext ∈ (html_to_pdf w3 (some ("x")) none ("o.pdf") none pdfDef renderDef).2 ∧
    Ev.closeBrowser ∈ (html_to_pdf w3 (some ("x")) none ("o.pdf") none pdfDef renderDef).2 :=
  teardown_on_try_exit w3 ("x") ("o.pdf") none pdfDef renderDef rfl rfl rfl rfl
    (Or.inl rfl) rfl

/-- C6 (counterexample): if `page.emulate_media` raises — after the browser
process, context and page have all been acquired — the exception occurs
before the try/finally block, so neither `context.close()` nor
`browser.close()` runs on that exit path; only the playwright scope exits. -/
theorem emulate_failure_skips_teardown :
    Ev.launch ∈ (html_to_pdf w2 (some ("x")) none ("o.pdf") none pdfDef renderDef).2 ∧
    Ev.newContext ∈ (html_to_pdf w2 (some ("x")) none ("o.pdf") none pdfDef renderDef).2 ∧
    Ev.newPage ∈ (html_to_pdf w2 (some ("x")) none ("o.pdf") none pdfDef renderDef).2 ∧
    Ev.closeContext ∉ (html_to_pdf w2 (some ("x")) none ("o.pdf") none pdfDef renderDef).2 ∧
    Ev.closeBrowser ∉ (html_to_pdf w2 (some ("x")) none ("o.pdf") none pdfDef renderDef).2 ∧
    (html_to_pdf w2 (some ("x")) none ("o.pdf") none pdfDef renderDef).1 =
      Except.error (PyError.playwrightError ("boom")) :=
  ⟨by decide, by decide, by decide, by decide, by decide, rfl⟩

/-- C7: when network access is disallowed, the installed `route_handler`
continues exactly the requests whose URL starts with `file://` and aborts
every other request (a total decision for every URL); the interception
policy is installed and the conversion itself still succeeds — an aborted
request does not fail the conversion. -/
theorem no_network_route_policy (url : String) (w : World) (htmlStr out : String)
    (bd : Option String) (p : PdfOptions) (r : RenderOptions)
    (hnet : r.allow_network = false) (hcss : r.extra_css_path = none)
    (hl : w.launchOk = true) (hcx : w.newContextOk = true) (hpg : w.newPageOk = true)
    (hrt : w.routeOk = true) (he : w.emulateOk = true) (hg : w.gotoOk = true)
    (hpdf : w.pdfOk = true) :
    (route_handler url = RouteAction.continue_ ↔ startsWithFileScheme url = true) ∧
    (route_handler url = RouteAction.abort ↔ startsWithFileScheme url = false) ∧
    Ev.installRoute ∈ (html_to_pdf w (some htmlStr) none out bd p r).2 ∧
    (html_to_pdf w (some htmlStr) none out bd p r).1 = Except.ok (w.resolve out) := by
  refine ⟨?_, ?_, ?_, ?_⟩
  · by_cases hsw : startsWithFileScheme url = true
    · simp [route_handler, hsw]
    · rw [Bool.not_eq_true] at hsw
      simp [route_handler, hsw]
  · by_cases hsw : startsWithFileScheme url = true
    · simp [route_handler, hsw]
    · rw [Bool.not_eq_true] at hsw
      simp [route_handler, hsw]
  · simp [html_to_pdf, afterRead, afterCss, renderStage, hnet, hcss, hl, hcx, hpg, hrt,
      he, hg, hpdf]
  · simp [html_to_pdf, afterRead, afterCss, renderStage, hnet, hcss, hl, hcx, hpg, hrt,
      he, hg, hpdf]

theorem no_network_route_policy_witness :
    route_handler ("https://x.example/a.png") = RouteAction.abort ∧
    Ev.installRoute ∈ (html_to_pdf w0 (some ("x")) none ("o.pdf") none pdfDef renderNoNet).2 ∧
    (html_to_pdf w0 (some ("x")) none ("o.pdf") none pdfDef renderNoNet).1 =
      Except.ok (w0.resolve ("o.pdf")) :=
  ⟨(no_network_route_policy ("https://x.example/a.png") w0 ("x") ("o.pdf") none pdfDef
      renderNoNet rfl rfl rfl rfl rfl rfl rfl rfl rfl).2.1.mpr (by decide),
    (no_network_route_policy ("https://x.example/a.png") w0 ("x") ("o.pdf") none pdfDef
      renderNoNet rfl rfl rfl rfl rfl rfl rfl rfl rfl).2.2.1,
    (no_network_route_policy ("https://x.example/a.png") w0 ("x") ("o.pdf") none pdfDef
      renderNoNet rfl rfl rfl rfl rfl rfl rfl rfl rfl).2.2.2⟩

/-- C8: a `--margin` value that does not split into exactly four
comma-separated tokens makes the CLI exit with status code 2 and the usage
message, without invoking the conversion; the default margin string
`16mm,14mm,16mm,14mm` parses into top=16mm, right=14mm, bottom=16mm,
left=14mm and those values populate the `PdfOptions` passed to the
conversion. -/
theorem margin_cli_behavior (a : Args) :
    ((pySplitComma a.margin.toList).length ≠ 4 →
      cli_main a = CliOutcome.exited 2 marginErrMsg) ∧
    (a.margin = "16mm,14mm,16mm,14mm" →
      cli_main a = CliOutcome.invoked
        (mainPdfOpts a ("16mm") ("14mm") ("16mm") ("14mm")) (mainRenderOpts a)
        a.input a.output a.base_dir ∧
      (mainPdfOpts a ("16mm") ("14mm") ("16mm") ("14mm")).margin_top = "16mm" ∧
      (mainPdfOpts a ("16mm") ("14mm") ("16mm") ("14mm")).margin_right = "14mm" ∧
      (mainPdfOpts a ("16mm") ("14mm") ("16mm") ("14mm")).margin_bottom = "16mm" ∧
      (mainPdfOpts a ("16mm") ("14mm") ("16mm") ("14mm")).margin_left = "14mm") := by
  constructor
  · intro hlen
    have h4 : (splitMargin a.margin).length ≠ 4 := by
      simpa [splitMargin] using hlen
    rcases hL : splitMargin a.margin with _ | ⟨t, _ | ⟨r, _ | ⟨b, _ | ⟨l, _ | ⟨x, xs⟩⟩⟩⟩⟩ <;>
      simp [cli_main, hL] at h4 ⊢
  · intro hm
    have hsm : splitMargin a.margin = [("16mm" : String), "14mm", "16mm", "14mm"] := by
      rw [hm]; decide
    refine ⟨by simp [cli_main, hsm], ?_, ?_, ?_, ?_⟩ <;>
      by_cases hh : a.header_footer = true <;> simp [mainPdfOpts, hh]

theorem margin_cli_behavior_witness :
    cli_main argsBad = CliOutcome.exited 2 marginErrMsg :=
  (margin_cli_behavior argsBad).1 (by decide)
